import Mathlib

/-!
Shallow embedding of the alert ingestion, deduplication and fan-out pipeline of
philippirsl/Informa-Waze (src/waze.go), together with the peak counter, the
persistence layer and the scheduler arithmetic, and proofs settling the
frozen claims about the natural-language specification of the repository.

Conventions of the embedding:
* Go dynamic values stored in an `interface{}` are modelled by `GoVal`; a
  failed (single-valued) type assertion is a runtime panic, modelled by the
  `GoPanic` error of an `Except`.  Nothing in the program recovers from a
  panic, so `Except.error GoPanic.typeAssertion` denotes a crash of the
  process, not an error value that a caller receives and handles.
* A raw alert record (Go `map[string]interface{}`) is an association list of
  field name and value; Go map lookup of an absent key yields the nil
  interface, whose single-valued type assertion panics, modelled by an
  `Option`-valued lookup.
* The dedup `Set` (waze.go lines 505-549, a `map[string]struct{}` under a
  mutex) is modelled by its list of members with membership test; `Set.Add`
  of a present member is a no-op on the map, so adding conses only fresh
  members.
* The channel dispatch of `processAlerts` (line 357) plus the append that the
  `main` receive loop performs (line 108) are modelled by an event trace and
  a log append; the trace records the order of the channel send (`dispatch`)
  and of `Set.Add` (`add`) exactly as the source performs them.
* The handlers read the wall clock (`time.Now().Format("15:04:05")`,
  waze.go lines 277-297); the formatted clock value is passed explicitly as
  the `now` argument.
-/

/-- Dynamic Go values that can sit in an `interface{}` slot in this program:
the six shapes `encoding/json` decodes into an empty interface (nil, bool,
float64, string, `[]interface` slices, `map[string]interface` maps) plus the
two statically typed values the program itself stores (`[]string`, `int`).
The `vFloat` payload records a float64 dynamic type; its numeric value is
irrelevant to every claim, so it is carried as the integral value. -/
inductive GoVal where
  | vNull
  | vBool (b : Bool)
  | vFloat (n : Int)
  | vString (s : String)
  | vSlice (xs : List GoVal)
  | vObj (fs : List (String × GoVal))
  | vStringSlice (xs : List String)
  | vInt (n : Int)

/-- A raw alert record, Go `map[string]interface{}` (field order fixed by the
association list; the source iterates the map in unspecified order only in
`formatAlertData`). -/
abbrev AlertRec := List (String × GoVal)

/-- A Go runtime panic.  The only panics the embedded code can raise are
failed single-valued type assertions (`x.(string)` and friends), which crash
the goroutine and the process; nothing in the source recovers from one. -/
inductive GoPanic where
  | typeAssertion
deriving DecidableEq

/-- The single-valued type assertion `.(string)`: succeeds exactly on a
string-typed dynamic value. -/
def assertString : GoVal → Option String
  | .vString s => some s
  | _ => none

/-- The type assertion `.([]string)` of `Database.GetProcessedAlerts`
(waze.go line 473): succeeds exactly on a `[]string`-typed value. -/
def assertStringSlice : GoVal → Option (List String)
  | .vStringSlice xs => some xs
  | _ => none

/-- The type assertion `.(int)` of `Database.GetMaxWazersOnline`
(waze.go line 482): succeeds exactly on an `int`-typed value. -/
def assertGoInt : GoVal → Option Int
  | .vInt n => some n
  | _ => none

/-- `alertData["uuid"].(string)` (waze.go line 355): `some id` when the
record carries a string uuid, `none` when the lookup-plus-assertion panics. -/
def getUuid (a : AlertRec) : Option String :=
  (List.lookup "uuid" a).bind assertString

/-- The pipeline state shared between `processAlerts` and the `main` receive
loop: the dedup set `processedAlerts` (members of the Go `Set`) and the
append-only `alerts` log that `main` extends on every channel receive. -/
structure PipeState where
  processed : List String
  log : List AlertRec

/-- One observable effect of `processAlerts` on a newly seen alert:
`dispatch id` is the channel send `alertsCh <- alertData` (waze.go line 357),
`add id` is `processedAlerts.Add(alertID)` (line 358). -/
inductive Event where
  | dispatch (id : String)
  | add (id : String)
deriving DecidableEq

/-- `processAlerts` (waze.go lines 350-361).  For each record in feed order:
assert the string uuid (panic when absent or not a string), skip the record
when the uuid is already in the dedup set, otherwise send it on the alert
channel (which the `main` loop appends to the log) and then add the uuid to
the dedup set.  The returned trace records the dispatch and add effects in
program order.  Typing the batch as `List AlertRec` elides the
`alert.(map[string]interface{})` assertion of line 354, which likewise
panics on a non-map element. -/
def processAlerts : List AlertRec → PipeState → Except GoPanic (List Event × PipeState)
  | [], s => .ok ([], s)
  | a :: rest, s =>
    match getUuid a with
    | none => .error .typeAssertion
    | some id =>
      if id ∈ s.processed then
        processAlerts rest s
      else
        match processAlerts rest ⟨id :: s.processed, s.log ++ [a]⟩ with
        | .error e => .error e
        | .ok (tr, s') => .ok (.dispatch id :: .add id :: tr, s')

/-- The uuids of a batch, in feed order (records lacking one contribute
nothing; such a record panics the run anyway). -/
def uuids (batch : List AlertRec) : List String :=
  batch.filterMap getUuid

/-- How many times the trace dispatches a given identifier. -/
def dispatchCount (tr : List Event) (id : String) : Nat :=
  tr.countP fun e =>
    match e with
    | .dispatch i => i == id
    | .add _ => false

/-- Number of identifiers of the list that are new relative to the dedup
set, counting a repeated identifier once (the recursion mirrors
`processAlerts`). -/
def countNew : List String → List String → Nat
  | [], _ => 0
  | id :: rest, p => if id ∈ p then countNew rest p else countNew rest (id :: p) + 1

/-- The first record of the spec scenario batch: `{id:"a1",type:"JAM"}`. -/
def a1jam : AlertRec := [("uuid", .vString "a1"), ("type", .vString "JAM")]

/-- The third record of the spec scenario batch: `{id:"a2",type:"POLICE"}`. -/
def a2pol : AlertRec := [("uuid", .vString "a2"), ("type", .vString "POLICE")]

/-- The spec scenario batch
`[{id:"a1",type:"JAM"}, {id:"a1",type:"JAM"}, {id:"a2",type:"POLICE"}]`. -/
def scenarioBatch : List AlertRec := [a1jam, a1jam, a2pol]

/-- Rendering of one dynamic value by `fmt.Sprintf("%v", val)` as used in
`formatAlertData` (waze.go line 425), at the level of detail the claims
need: every constructor renders to some string, recursively for slices and
maps. -/
def goValStr : GoVal → String
  | .vNull => "<nil>"
  | .vBool b => if b then "true" else "false"
  | .vFloat n => toString n
  | .vString s => s
  | .vSlice xs => "[" ++ String.intercalate " " (xs.attach.map fun x => goValStr x.1) ++ "]"
  | .vObj fs =>
      "map[" ++ String.intercalate " "
        (fs.attach.map fun p => p.1.1 ++ ":" ++ goValStr p.1.2) ++ "]"
  | .vStringSlice xs => "[" ++ String.intercalate " " xs ++ "]"
  | .vInt n => toString n
decreasing_by
  · have := List.sizeOf_lt_of_mem x.2
    simp only [GoVal.vSlice.sizeOf_spec]
    omega
  · have h := List.sizeOf_lt_of_mem p.2
    have h2 : sizeOf p.1.2 < sizeOf p.1 := by
      obtain ⟨q, v⟩ := p.1
      simp only [Prod.mk.sizeOf_spec]
      omega
    simp only [GoVal.vObj.sizeOf_spec]
    omega

/-- `formatAlertData` (waze.go lines 421-429): one `key: value` line per
field.  The source iterates the Go map in unspecified order; the embedding
fixes the association-list order. -/
def formatAlertData (a : AlertRec) : String :=
  String.join (a.map fun p => p.1 ++ ": " ++ goValStr p.2 ++ "\n")

/-- `handleChitChat` (waze.go lines 273-278): asserts `alert["reportBy"]`
then `alert["location"]` as strings (each panics when the field is absent or
not a string) and renders the comment message prefixed with the formatted
current time `now`. -/
def handleChitChat (now : String) (alert : AlertRec) : Except GoPanic String :=
  match (List.lookup "reportBy" alert).bind assertString with
  | none => .error .typeAssertion
  | some reportBy =>
    match (List.lookup "location" alert).bind assertString with
    | none => .error .typeAssertion
    | some location =>
      .ok ("[" ++ now ++ "] 📢 " ++ reportBy ++
        " deixou um comentário no mapa 💭\nAnálise 🗺️: " ++ location)

/-- `handlePoliceAlert` (waze.go lines 280-283). -/
def handlePoliceAlert (now : String) (alert : AlertRec) : String :=
  "[" ++ now ++ "] 📢 Polícia &#128660;\n```" ++ formatAlertData alert ++ "```"

/-- `handleJamAlert` (waze.go lines 285-288). -/
def handleJamAlert (now : String) (alert : AlertRec) : String :=
  "[" ++ now ++ "] 📢 Congestionamento 🚗🚕🚙\n```" ++ formatAlertData alert ++ "```"

/-- `handleAccidentAlert` (waze.go lines 290-293). -/
def handleAccidentAlert (now : String) (alert : AlertRec) : String :=
  "[" ++ now ++ "] 📢 Acidente 🚙💥🚕\n```" ++ formatAlertData alert ++ "```"

/-- `handleUnknownAlert` (waze.go lines 295-298). -/
def handleUnknownAlert (now : String) (alert : AlertRec) : String :=
  "[" ++ now ++ "] 🤖 Tipo de notificação desconhecida\n```" ++ formatAlertData alert ++ "```"

/-- The peak update of `countWazers` (waze.go lines 387-389): replace the
stored counter by the sample exactly when the sample strictly exceeds it.
There is no error path: the comparison-and-set is total. -/
def countWazersUpdate (sample cur : Int) : Int :=
  if sample > cur then sample else cur

/-- A finite sequence of `countWazers` peak updates applied to the counter. -/
def runObserves (samples : List Int) (cur : Int) : Int :=
  samples.foldl (fun c v => countWazersUpdate v c) cur

/-- The summary message of `sendWazersReport` (waze.go line 395). -/
def reportMessage (n : Int) : String :=
  toString n ++ " wazers conectados 🚙 🚕 🚚"

/-- `sendWazersReport` (waze.go lines 392-399): read the counter; when it is
positive, send the summary message and reset the counter to 0; otherwise
send nothing and leave the counter alone.  Returns the message sent (if
any) and the new counter value; the value read is the argument itself. -/
def sendWazersReport (cur : Int) : Option String × Int :=
  if cur > 0 then (some (reportMessage cur), 0) else (none, cur)

/-- Capacity of each subscriber wake channel:
`client := make(chan struct{}, 1)` (waze.go line 169). -/
def wakeCap : Nat := 1

/-- A Go send on a buffered channel, by buffer occupancy: the send completes
at once when a slot is free, and otherwise blocks the sender (`none`) until
a receiver drains the channel.  `client <- struct{}{}` (waze.go line 113) is
a plain send with no `select`/`default`, so there is no non-blocking path. -/
def chanSend (pending : Nat) : Option Nat :=
  if pending < wakeCap then some (pending + 1) else none

/-- The fan-out loop of `main` (waze.go lines 111-115): send one wake signal
to every registered subscriber in turn; if any single send blocks, the whole
dispatcher blocks (`none`), with the clients lock held.  Each subscriber is
represented by the occupancy of its wake channel. -/
def wakeClients : List Nat → Option (List Nat)
  | [] => some []
  | c :: rest =>
    match chanSend c with
    | none => none
    | some c' =>
      match wakeClients rest with
      | none => none
      | some rest' => some (c' :: rest')

/-- Nanoseconds per minute; times are absolute nanosecond counts with the
(whole-minute) zone offset absorbed, so zeroing the second and nanosecond
fields of `time.Date` is truncation to a multiple of this constant. -/
def nsecPerMinute : Nat := 60000000000

/-- The next-fire computation of `scheduleJob` (waze.go lines 304-306):
`next := now.Add(1 * time.Minute)` followed by
`time.Date(..., next.Minute(), 0, 0, ...)`, i.e. add one minute and truncate
the seconds and sub-seconds to zero. -/
def nextMinuteBoundary (now : Nat) : Nat :=
  ((now + nsecPerMinute) / nsecPerMinute) * nsecPerMinute

/-- A JSON value as `encoding/json` decodes it into an empty interface:
null, bool, number (always float64 — carried here as its integral value,
only the dynamic type matters), string, array, object.  No JSON value
decodes to a `[]string` or an `int` dynamic type. -/
inductive JVal where
  | jnull
  | jbool (b : Bool)
  | jnum (n : Int)
  | jstr (s : String)
  | jarr (xs : List JVal)
  | jobj (fs : List (String × JVal))

/-- The dynamic Go value a decoded JSON value occupies: arrays become
`[]interface` slices and numbers float64, never `[]string` or `int`. -/
def JVal.toGoVal : JVal → GoVal
  | .jnull => .vNull
  | .jbool b => .vBool b
  | .jnum n => .vFloat n
  | .jstr s => .vString s
  | .jarr xs => .vSlice (xs.attach.map fun x => JVal.toGoVal x.1)
  | .jobj fs => .vObj (fs.attach.map fun p => (p.1.1, JVal.toGoVal p.1.2))
decreasing_by
  · have := List.sizeOf_lt_of_mem x.2
    simp only [JVal.jarr.sizeOf_spec]
    omega
  · have h := List.sizeOf_lt_of_mem p.2
    have h2 : sizeOf p.1.2 < sizeOf p.1 := by
      obtain ⟨q, v⟩ := p.1
      simp only [Prod.mk.sizeOf_spec]
      omega
    simp only [JVal.jobj.sizeOf_spec]
    omega

/-- `Database.GetProcessedAlerts` (waze.go lines 471-478) applied to the
decoded content of db.json: `file = none` models an unreadable or
undecodable snapshot (`load` leaves `db.data` empty); otherwise `db.data`
holds the decoded key-value pairs.  The `.([]string)` assertion falls back
to the empty list when it fails, and the resulting `Set` has exactly the
listed members. -/
def getProcessedAlerts (file : Option (List (String × JVal))) : List String :=
  ((((file.getD []).lookup "processedAlerts").map JVal.toGoVal).bind assertStringSlice).getD []

/-- `Database.GetMaxWazersOnline` (waze.go lines 480-487) applied to the
decoded content of db.json; the `.(int)` assertion falls back to 0 when it
fails, and the resulting `Counter` starts at the returned value. -/
def getMaxWazersOnline (file : Option (List (String × JVal))) : Int :=
  ((((file.getD []).lookup "maxWazersOnline").map JVal.toGoVal).bind assertGoInt).getD 0

/-- Full characterisation of a non-panicking `processAlerts` run: the run
succeeds when every record carries a string uuid; afterwards the dedup set
holds exactly the old members plus the batch uuids, each identifier is
dispatched once when new and never when already present, the log grows by
the number of fresh distinct identifiers, and a batch with no fresh
identifier leaves the state untouched with an empty trace. -/
lemma processAlerts_run (batch : List AlertRec) :
    ∀ s : PipeState, (∀ a ∈ batch, (getUuid a).isSome) →
    ∃ tr s', processAlerts batch s = .ok (tr, s') ∧
      (∀ x, x ∈ s'.processed ↔ x ∈ s.processed ∨ x ∈ uuids batch) ∧
      (∀ id, dispatchCount tr id =
        if id ∈ uuids batch ∧ id ∉ s.processed then 1 else 0) ∧
      s'.log.length = s.log.length + countNew (uuids batch) s.processed ∧
      ((∀ id ∈ uuids batch, id ∈ s.processed) → tr = [] ∧ s' = s) := by
  induction batch with
  | nil =>
    intro s _
    refine ⟨[], s, rfl, ?_, ?_, ?_, fun _ => ⟨rfl, rfl⟩⟩
    · simp [uuids]
    · simp [uuids, dispatchCount]
    · simp [uuids, countNew]
  | cons a rest ih =>
    intro s h
    have ha : (getUuid a).isSome := h a (by simp)
    obtain ⟨id, hid⟩ : ∃ id, getUuid a = some id := by
      cases hg : getUuid a with
      | none => rw [hg] at ha; simp at ha
      | some i => exact ⟨i, rfl⟩
    have hrest : ∀ b ∈ rest, (getUuid b).isSome := fun b hb => h b (by simp [hb])
    have huu : uuids (a :: rest) = id :: uuids rest := by
      simp [uuids, List.filterMap_cons, hid]
    by_cases hmem : id ∈ s.processed
    · obtain ⟨tr, s', heq, hproc, hcount, hlog, hnoop⟩ := ih s hrest
      refine ⟨tr, s', ?_, ?_, ?_, ?_, ?_⟩
      · simp only [processAlerts, hid, hmem, if_pos]
        exact heq
      · intro x
        rw [hproc x, huu]
        constructor
        · rintro (hx | hx)
          · exact Or.inl hx
          · exact Or.inr (by simp [hx])
        · rintro (hx | hx)
          · exact Or.inl hx
          · rcases List.mem_cons.mp hx with rfl | hx
            · exact Or.inl hmem
            · exact Or.inr hx
      · intro i
        rw [hcount i, huu]
        by_cases hiid : i = id
        · subst hiid
          simp [hmem]
        · have h1 : (i ∈ uuids rest ∧ i ∉ s.processed) ↔
              (i ∈ id :: uuids rest ∧ i ∉ s.processed) := by
            simp only [List.mem_cons]
            tauto
          rw [if_congr h1 rfl rfl]
      · rw [hlog, huu]
        simp [countNew, hmem]
      · intro hall
        refine hnoop fun i hi => hall i ?_
        rw [huu]; exact List.mem_cons_of_mem _ hi
    · obtain ⟨tr, s', heq, hproc, hcount, hlog, hnoop⟩ :=
        ih ⟨id :: s.processed, s.log ++ [a]⟩ hrest
      refine ⟨.dispatch id :: .add id :: tr, s', ?_, ?_, ?_, ?_, ?_⟩
      · simp only [processAlerts, hid, hmem, if_neg, not_false_iff]
        rw [heq]
      · intro x
        rw [hproc x, huu]
        simp only [List.mem_cons]
        tauto
      · intro i
        have hc := hcount i
        simp only [dispatchCount, List.countP_cons] at hc ⊢
        rw [hc, huu]
        by_cases hiid : i = id
        · subst hiid
          simp [hmem]
        · have h1 : (i ∈ uuids rest ∧ i ∉ id :: s.processed) ↔
              (i ∈ id :: uuids rest ∧ i ∉ s.processed) := by
            simp only [List.mem_cons]
            tauto
          rw [if_congr h1 rfl rfl]
          have h2 : (id == i) = false := by
            simp [beq_iff_eq]
            exact fun hc => hiid hc.symm
          simp [h2]
      · rw [hlog, huu]
        simp only [List.length_append, List.length_cons, List.length_nil]
        have h3 : countNew (id :: uuids rest) s.processed =
            countNew (uuids rest) (id :: s.processed) + 1 := by
          simp [countNew, hmem]
        omega
      · intro hall
        exact absurd (hall id (by rw [huu]; simp)) hmem

/-- C1: ingesting a batch of well-formed alerts (each carrying a string
uuid) twice in succession through `processAlerts` dispatches each distinct
identifier exactly once across both calls: an identifier already in the
dedup set is never dispatched, the second run is a no-op with an empty
trace, after the first run the dedup set holds exactly the old members plus
the batch uuids, and the alert log grows by the number of fresh distinct
identifiers. -/
theorem processAlerts_twice_dedup (batch : List AlertRec) (s : PipeState)
    (h : ∀ a ∈ batch, (getUuid a).isSome) :
    ∃ tr₁ s₁ tr₂ s₂,
      processAlerts batch s = .ok (tr₁, s₁) ∧
      processAlerts batch s₁ = .ok (tr₂, s₂) ∧
      tr₂ = [] ∧ s₂ = s₁ ∧
      (∀ id, id ∈ uuids batch → id ∉ s.processed →
        dispatchCount (tr₁ ++ tr₂) id = 1) ∧
      (∀ id, id ∈ s.processed → dispatchCount (tr₁ ++ tr₂) id = 0) ∧
      (∀ x, x ∈ s₁.processed ↔ x ∈ s.processed ∨ x ∈ uuids batch) ∧
      s₁.log.length = s.log.length + countNew (uuids batch) s.processed := by
  obtain ⟨tr₁, s₁, e₁, hproc₁, hcount₁, hlog₁, _⟩ := processAlerts_run batch s h
  obtain ⟨tr₂, s₂, e₂, _, _, _, hnoop₂⟩ := processAlerts_run batch s₁ h
  have hall : ∀ id ∈ uuids batch, id ∈ s₁.processed := fun id hi =>
    (hproc₁ id).mpr (Or.inr hi)
  obtain ⟨htr₂, hs₂⟩ := hnoop₂ hall
  refine ⟨tr₁, s₁, tr₂, s₂, e₁, e₂, htr₂, hs₂, ?_, ?_, hproc₁, hlog₁⟩
  · intro id hi hns
    rw [htr₂, List.append_nil, hcount₁ id, if_pos ⟨hi, hns⟩]
  · intro id hi
    rw [htr₂, List.append_nil, hcount₁ id]
    simp [hi]

/-- C1 witness: on the spec scenario batch ingested from the empty state,
both runs succeed, "a1" and "a2" are each dispatched exactly once across the
two runs (the trace of the first run is the four listed events, the second
run is empty), the batch uuid list is ["a1", "a1", "a2"] and the number of
fresh distinct identifiers — the log growth — is 2. -/
theorem processAlerts_twice_dedup_witness :
    dispatchCount ([Event.dispatch "a1", Event.add "a1",
      Event.dispatch "a2", Event.add "a2"] ++ []) "a1" = 1 ∧
    dispatchCount ([Event.dispatch "a1", Event.add "a1",
      Event.dispatch "a2", Event.add "a2"] ++ []) "a2" = 1 ∧
    uuids scenarioBatch = ["a1", "a1", "a2"] ∧
    countNew (uuids scenarioBatch) [] = 2 := by
  obtain ⟨tr₁, s₁, tr₂, s₂, e₁, e₂, htr₂, hs₂, hone, hzero, hproc, hlog⟩ :=
    processAlerts_twice_dedup scenarioBatch ⟨[], []⟩ (by decide)
  have e : processAlerts scenarioBatch ⟨[], []⟩ =
      .ok ([Event.dispatch "a1", Event.add "a1", Event.dispatch "a2", Event.add "a2"],
           ⟨["a2", "a1"], [a1jam, a2pol]⟩) := rfl
  rw [e] at e₁
  simp only [Except.ok.injEq, Prod.mk.injEq] at e₁
  obtain ⟨h1, h2⟩ := e₁
  subst h1
  subst htr₂
  exact ⟨hone "a1" (by decide) (by decide), hone "a2" (by decide) (by decide),
    rfl, by decide⟩

/-- C7: in every successful `processAlerts` run, the channel dispatch of a
newly seen alert happens strictly before the addition of its identifier to
the dedup set: in every prefix of the effect trace (every truncation point,
e.g. a crash), an identifier that has been added has already been
dispatched, so a failure between dispatch and add can only leave a
dispatched-but-unrecorded alert (a later duplicate), never an
added-but-undispatched one (a lost alert); and every fresh identifier of
the batch is dispatched. -/
theorem dispatch_before_add (batch : List AlertRec) :
    ∀ (s : PipeState) (tr : List Event) (s' : PipeState),
    processAlerts batch s = .ok (tr, s') →
    (∀ k id, Event.add id ∈ tr.take k → Event.dispatch id ∈ tr.take k) ∧
    (∀ id, id ∈ uuids batch → id ∉ s.processed → Event.dispatch id ∈ tr) := by
  induction batch with
  | nil =>
    intro s tr s' h
    simp only [processAlerts, Except.ok.injEq, Prod.mk.injEq] at h
    obtain ⟨rfl, rfl⟩ := h
    constructor
    · intro k id hmem
      simp at hmem
    · intro id hi
      simp [uuids] at hi
  | cons a rest ih =>
    intro s tr s' h
    cases hg : getUuid a with
    | none =>
      simp only [processAlerts, hg] at h
      exact absurd h (by simp)
    | some id =>
      simp only [processAlerts, hg] at h
      have huu : uuids (a :: rest) = id :: uuids rest := by
        simp [uuids, List.filterMap_cons, hg]
      by_cases hmem : id ∈ s.processed
      · rw [if_pos hmem] at h
        obtain ⟨h1, h2⟩ := ih s tr s' h
        refine ⟨h1, ?_⟩
        intro i hi hns
        rw [huu] at hi
        rcases List.mem_cons.mp hi with rfl | hi
        · exact absurd hmem hns
        · exact h2 i hi hns
      · rw [if_neg hmem] at h
        cases heq : processAlerts rest ⟨id :: s.processed, s.log ++ [a]⟩ with
        | error e => rw [heq] at h; exact absurd h (by simp)
        | ok p =>
          obtain ⟨tr0, s''⟩ := p
          rw [heq] at h
          simp only [Except.ok.injEq, Prod.mk.injEq] at h
          obtain ⟨rfl, rfl⟩ := h
          obtain ⟨h1, h2⟩ := ih _ tr0 s'' heq
          constructor
          · intro k i hmem'
            match k with
            | 0 => simp at hmem'
            | 1 =>
              simp only [List.take_succ_cons, List.take_zero] at hmem'
              simp at hmem'
            | Nat.succ (Nat.succ k) =>
              simp only [List.take_succ_cons] at hmem' ⊢
              simp only [List.mem_cons] at hmem' ⊢
              rcases hmem' with hc | hc | hc
              · exact absurd hc (by simp)
              · refine Or.inl ?_
                simp only [Event.add.injEq] at hc
                rw [hc]
              · exact Or.inr (Or.inr (h1 k i hc))
          · intro i hi hns
            rw [huu] at hi
            rcases List.mem_cons.mp hi with rfl | hi
            · exact List.mem_cons_self _ _
            · by_cases hiid : i = id
              · subst hiid; exact List.mem_cons_self _ _
              · have : i ∉ (⟨id :: s.processed, s.log ++ [a]⟩ : PipeState).processed := by
                  simp only [List.mem_cons]
                  rintro (rfl | hc)
                  · exact hiid rfl
                  · exact hns hc
                have := h2 i hi this
                exact List.mem_cons_of_mem _ (List.mem_cons_of_mem _ this)

/-- C7 witness: processing the single fresh alert a2 from the empty state
yields the trace [dispatch "a2", add "a2"], and in its prefix of length 2
the add of "a2" is preceded by its dispatch. -/
theorem dispatch_before_add_witness :
    Event.dispatch "a2" ∈ ([Event.dispatch "a2", Event.add "a2"].take 2) :=
  (dispatch_before_add [a2pol] ⟨[], []⟩ [Event.dispatch "a2", Event.add "a2"]
    ⟨["a2"], [a2pol]⟩ rfl).1 2 "a2" (by decide)

/-- C3 counterexample: a record lacking the uuid field is not skipped with a
warning — `processAlerts` panics on the failed `alertData["uuid"].(string)`
assertion, a fatal condition that aborts the batch. -/
theorem processAlerts_missing_uuid_panics :
    processAlerts [[("type", GoVal.vString "JAM")]] ⟨[], []⟩ =
      Except.error GoPanic.typeAssertion := rfl

/-- C3 amended: `processAlerts` panics exactly when the batch contains a
record without a string uuid (the assertion runs on every record, also on
ones whose uuid is already known); a batch whose records all carry string
uuids is processed without a panic.  Malformed records are never skipped. -/
theorem processAlerts_panics_iff (batch : List AlertRec) :
    ∀ s : PipeState,
    processAlerts batch s = .error .typeAssertion ↔ ∃ a ∈ batch, getUuid a = none := by
  induction batch with
  | nil =>
    intro s
    simp [processAlerts]
  | cons a rest ih =>
    intro s
    cases hg : getUuid a with
    | none =>
      simp only [processAlerts, hg, true_iff]
      exact ⟨a, by simp, hg⟩
    | some id =>
      simp only [processAlerts, hg]
      by_cases hmem : id ∈ s.processed
      · rw [if_pos hmem, ih s]
        constructor
        · rintro ⟨b, hb, hbn⟩
          exact ⟨b, by simp [hb], hbn⟩
        · rintro ⟨b, hb, hbn⟩
          rcases List.mem_cons.mp hb with rfl | hb
          · rw [hg] at hbn; exact absurd hbn (by simp)
          · exact ⟨b, hb, hbn⟩
      · rw [if_neg hmem]
        constructor
        · intro h
          cases heq : processAlerts rest ⟨id :: s.processed, s.log ++ [a]⟩ with
          | error e =>
            cases e
            obtain ⟨b, hb, hbn⟩ := (ih _).mp heq
            exact ⟨b, by simp [hb], hbn⟩
          | ok p =>
            obtain ⟨tr0, s''⟩ := p
            rw [heq] at h
            exact absurd h (by simp)
        · rintro ⟨b, hb, hbn⟩
          rcases List.mem_cons.mp hb with rfl | hb
          · rw [hg] at hbn; exact absurd hbn (by simp)
          · have hrec : processAlerts rest ⟨id :: s.processed, s.log ++ [a]⟩ =
                .error .typeAssertion :=
              (ih _).mpr ⟨b, hb, hbn⟩
            rw [hrec]

/-- C3 witness: a concrete instance of the amended claim — a batch holding
one record with a type but no uuid panics. -/
theorem processAlerts_panics_iff_witness :
    processAlerts [[("type", GoVal.vString "POLICE")]] ⟨[], []⟩ =
      Except.error GoPanic.typeAssertion :=
  (processAlerts_panics_iff [[("type", GoVal.vString "POLICE")]] ⟨[], []⟩).mpr
    ⟨[("type", GoVal.vString "POLICE")], by simp, rfl⟩

/-- C4 counterexample: classifying a Comment-tagged record that lacks the
location field does not fail with a recoverable MalformedAlert error — it
panics on the failed `alert["location"].(string)` assertion, crashing the
process instead of rejecting the record. -/
theorem handleChitChat_missing_location_panics :
    handleChitChat "12:00:00"
      [("type", GoVal.vString "CHIT_CHAT"), ("reportBy", GoVal.vString "alice")] =
      Except.error GoPanic.typeAssertion := rfl

/-- C4 amended: a Comment-tagged alert missing the reporter or the location
string makes `handleChitChat` panic (a failed type assertion, not a
returned MalformedAlert error — the function has no error channel); with
both fields present classification succeeds and the rendered string is the
literal concatenation exhibiting both the reporter text and the location
text. -/
theorem handleChitChat_spec (now : String) (alert : AlertRec) :
    (((List.lookup "reportBy" alert).bind assertString = none ∨
      (List.lookup "location" alert).bind assertString = none) →
      handleChitChat now alert = Except.error GoPanic.typeAssertion) ∧
    (∀ reportBy location,
      (List.lookup "reportBy" alert).bind assertString = some reportBy →
      (List.lookup "location" alert).bind assertString = some location →
      handleChitChat now alert =
        Except.ok (("[" ++ now ++ "] 📢 ") ++ reportBy ++
          (" deixou um comentário no mapa 💭\nAnálise 🗺️: ") ++ location)) := by
  constructor
  · rintro (h | h)
    · simp [handleChitChat, h]
    · cases hr : (List.lookup "reportBy" alert).bind assertString with
      | none => simp [handleChitChat, hr]
      | some r => simp [handleChitChat, hr, h]
  · intro r l hr hl
    simp [handleChitChat, hr, hl]

/-- C4 witness: a Comment alert carrying both fields renders successfully to
a string containing the reporter text "bob" and the location text "centro". -/
theorem handleChitChat_spec_witness :
    handleChitChat "10:00:00"
      [("reportBy", GoVal.vString "bob"), ("location", GoVal.vString "centro")] =
      Except.ok (("[" ++ "10:00:00" ++ "] 📢 ") ++ "bob" ++
        (" deixou um comentário no mapa 💭\nAnálise 🗺️: ") ++ "centro") :=
  (handleChitChat_spec "10:00:00"
    [("reportBy", GoVal.vString "bob"), ("location", GoVal.vString "centro")]).2
    "bob" "centro" rfl rfl

/-- C9 counterexample: the rendered output is not a deterministic function
of the alert record's fields alone — two calls on the same record at
different clock readings produce different strings, because every handler
embeds `time.Now()` in its output. -/
theorem render_depends_on_clock :
    handleJamAlert "00:00:00" [] ≠ handleJamAlert "11:11:11" [] := by decide

/-- C9 amended: classification and rendering perform no effect beyond
reading the clock, and the rendered output is a deterministic function of
the alert's fields together with the formatted current time: `handleChitChat`
reads only the reportBy and location fields (records agreeing on those two
lookups render identically at the same instant), and the four dump-style
handlers read the record only through `formatAlertData`. -/
theorem classify_render_deterministic (now : String) (a b : AlertRec) :
    ((List.lookup "reportBy" a).bind assertString =
        (List.lookup "reportBy" b).bind assertString →
      (List.lookup "location" a).bind assertString =
        (List.lookup "location" b).bind assertString →
      handleChitChat now a = handleChitChat now b) ∧
    (formatAlertData a = formatAlertData b →
      handlePoliceAlert now a = handlePoliceAlert now b ∧
      handleJamAlert now a = handleJamAlert now b ∧
      handleAccidentAlert now a = handleAccidentAlert now b ∧
      handleUnknownAlert now a = handleUnknownAlert now b) := by
  constructor
  · intro h1 h2
    simp only [handleChitChat, h1, h2]
  · intro h
    simp only [handlePoliceAlert, handleJamAlert, handleAccidentAlert,
      handleUnknownAlert, h]
    exact ⟨trivial, trivial, trivial, trivial⟩

/-- C9 witness: two records that agree on the reportBy and location lookups
(in different field order, one with an extra field) render to the same
comment message at the same instant. -/
theorem classify_render_deterministic_witness :
    handleChitChat "09:30:00"
      [("reportBy", GoVal.vString "ana"), ("location", GoVal.vString "ponte"),
       ("extra", GoVal.vNull)] =
    handleChitChat "09:30:00"
      [("location", GoVal.vString "ponte"), ("reportBy", GoVal.vString "ana")] :=
  (classify_render_deterministic "09:30:00"
    [("reportBy", GoVal.vString "ana"), ("location", GoVal.vString "ponte"),
     ("extra", GoVal.vNull)]
    [("location", GoVal.vString "ponte"), ("reportBy", GoVal.vString "ana")]).1 rfl rfl

/-- The peak update is the binary maximum: replacing on strict excess equals
taking the max of the current value and the sample. -/
lemma countWazersUpdate_eq_max (v c : Int) : countWazersUpdate v c = max c v := by
  simp only [countWazersUpdate, max_def]
  split_ifs <;> omega

/-- The counter never decreases under a sequence of peak updates. -/
lemma le_runObserves (samples : List Int) : ∀ c, c ≤ runObserves samples c := by
  induction samples with
  | nil => intro c; simp [runObserves]
  | cons v rest ih =>
    intro c
    simp only [runObserves, List.foldl_cons] at ih ⊢
    calc c ≤ countWazersUpdate v c := by
            rw [countWazersUpdate_eq_max]; exact le_max_left _ _
      _ ≤ _ := ih _

/-- Every observed sample is bounded by the final counter value. -/
lemma mem_le_runObserves (samples : List Int) :
    ∀ c, ∀ v ∈ samples, v ≤ runObserves samples c := by
  induction samples with
  | nil => intro c v hv; simp at hv
  | cons w rest ih =>
    intro c v hv
    simp only [runObserves, List.foldl_cons] at ih ⊢
    rcases List.mem_cons.mp hv with rfl | hv
    · calc v ≤ countWazersUpdate v c := by
              rw [countWazersUpdate_eq_max]; exact le_max_right _ _
        _ ≤ _ := le_runObserves rest _
    · exact ih _ v hv

/-- The final counter value is the initial value or one of the samples. -/
lemma runObserves_mem_or_init (samples : List Int) :
    ∀ c, runObserves samples c = c ∨ runObserves samples c ∈ samples := by
  induction samples with
  | nil => intro c; exact Or.inl rfl
  | cons v rest ih =>
    intro c
    simp only [runObserves, List.foldl_cons] at ih ⊢
    rcases ih (countWazersUpdate v c) with h | h
    · rw [h, countWazersUpdate_eq_max, max_def]
      split_ifs
      · exact Or.inr (List.mem_cons_self _ _)
      · exact Or.inl rfl
    · exact Or.inr (List.mem_cons_of_mem _ h)

/-- C5: after a nonempty sequence of non-negative samples applied to the
counter from 0 by the `countWazers` update, the value `sendWazersReport`
reads is the maximum of the samples (an upper bound that is itself a
sample), the report leaves the counter at 0, and a second report with no
intervening observation reads 0 and sends nothing. -/
theorem peak_counter_max (samples : List Int) (hne : samples ≠ [])
    (hnn : ∀ v ∈ samples, 0 ≤ v) :
    (∀ v ∈ samples, v ≤ runObserves samples 0) ∧
    runObserves samples 0 ∈ samples ∧
    (sendWazersReport (runObserves samples 0)).2 = 0 ∧
    sendWazersReport ((sendWazersReport (runObserves samples 0)).2) = (none, 0) := by
  obtain ⟨v₀, hv₀⟩ := List.exists_mem_of_ne_nil samples hne
  have hub := mem_le_runObserves samples 0
  have hmem : runObserves samples 0 ∈ samples := by
    rcases runObserves_mem_or_init samples 0 with h | h
    · rw [h]
      have h1 : v₀ ≤ runObserves samples 0 := hub v₀ hv₀
      have h2 : 0 ≤ v₀ := hnn v₀ hv₀
      rw [h] at h1
      have : v₀ = 0 := le_antisymm h1 h2
      rw [← this]
      exact hv₀
    · exact h
  have hpos : 0 ≤ runObserves samples 0 := le_runObserves samples 0
  have h20 : (sendWazersReport (runObserves samples 0)).2 = 0 := by
    simp only [sendWazersReport]
    split_ifs with h
    · rfl
    · show runObserves samples 0 = 0
      omega
  refine ⟨hub, hmem, h20, ?_⟩
  rw [h20]
  rfl

/-- C5 witness: the spec scenario — observations 12, 5, 30 from 0 — yields a
peak of 30 (bounded below by the sample 30 and itself a sample), and the
report resets the counter to 0. -/
theorem peak_counter_max_witness :
    (30 : Int) ≤ runObserves [12, 5, 30] 0 ∧
    runObserves [12, 5, 30] 0 ∈ ([12, 5, 30] : List Int) ∧
    (sendWazersReport (runObserves [12, 5, 30] 0)).2 = 0 := by
  have h := peak_counter_max [12, 5, 30] (by decide) (by decide)
  exact ⟨h.1 30 (by decide), h.2.1, h.2.2.1⟩

/-- C6 counterexample: observing -1 against a counter at 0 does not fail
with an InvalidSample error — the `countWazers` update is a total
comparison-and-set with no error path, so the call completes normally,
silently ignoring the negative sample (the claim asserts it is rejected
with an error rather than silently ignored). -/
theorem observe_negative_silently_ignored : countWazersUpdate (-1) 0 = 0 := rfl

/-- C6 amended: a negative sample observed against a non-negative counter is
silently ignored — the strict-greater comparison fails, the stored value is
returned unchanged, and no error of any kind is raised (the update has no
error channel). -/
theorem observe_negative_no_update (c : Int) (h : 0 ≤ c) :
    countWazersUpdate (-1) c = c := by
  simp only [countWazersUpdate]
  rw [if_neg]
  omega

/-- C6 witness: observing -1 against a counter at 5 leaves it at 5. -/
theorem observe_negative_no_update_witness : countWazersUpdate (-1) 5 = 5 :=
  observe_negative_no_update 5 (by decide)

/-- C8 counterexample: a wake delivered to a subscriber whose one-slot wake
channel already holds a pending signal is not coalesced — the plain channel
send blocks the dispatcher (`none`), contradicting the claim that delivery
never blocks and leaves a single pending signal. -/
theorem wake_blocks_when_pending : wakeClients [1] = none := rfl

/-- C8 amended: the wake signal is a plain blocking send on a capacity-one
channel: when every registered subscriber has an empty wake slot the
dispatch completes and leaves exactly one pending signal per subscriber,
but as soon as any subscriber already has a pending signal the dispatcher
blocks until that subscriber drains its channel — a second wake is queued
behind the first, never coalesced into it. -/
theorem wake_send_spec (clients : List Nat) :
    ((∀ c ∈ clients, c = 0) → wakeClients clients = some (clients.map fun _ => 1)) ∧
    (∀ c ∈ clients, 1 ≤ c → wakeClients clients = none) := by
  induction clients with
  | nil =>
    refine ⟨fun _ => rfl, ?_⟩
    intro c hc
    simp at hc
  | cons a rest ih =>
    constructor
    · intro h
      have ha : a = 0 := h a (by simp)
      subst ha
      have := ih.1 fun c hc => h c (by simp [hc])
      simp only [wakeClients, chanSend, wakeCap]
      rw [if_pos (by omega), this]
      rfl
    · intro c hc hge
      rcases List.mem_cons.mp hc with rfl | hc
      · simp only [wakeClients, chanSend, wakeCap]
        rw [if_neg (by omega)]
      · have := ih.2 c hc hge
        simp only [wakeClients]
        cases hs : chanSend a with
        | none => rfl
        | some a' => rw [this]

/-- C8 witness: waking two subscribers with empty slots pends one signal on
each; waking a pair whose second subscriber already has a pending signal
blocks the dispatcher. -/
theorem wake_send_spec_witness :
    wakeClients [0, 0] = some [1, 1] ∧ wakeClients [0, 1] = none :=
  ⟨(wake_send_spec [0, 0]).1 (by decide), (wake_send_spec [0, 1]).2 1 (by decide) (by decide)⟩

/-- C10: the next-fire time `scheduleJob` computes from any wake time is
exactly the top of the next minute — a time with zero seconds and
sub-seconds, strictly in the future, and no later than any other
minute-aligned strictly-future time — so every job firing lands on a
wall-clock minute boundary rather than at a fixed offset from task start. -/
theorem schedule_next_minute (now : Nat) :
    nextMinuteBoundary now % nsecPerMinute = 0 ∧
    now < nextMinuteBoundary now ∧
    ∀ t, t % nsecPerMinute = 0 → now < t → nextMinuteBoundary now ≤ t := by
  refine ⟨?_, ?_, ?_⟩
  · simp [nextMinuteBoundary, Nat.mul_mod_left]
  · simp only [nextMinuteBoundary, nsecPerMinute]
    omega
  · intro t ht hlt
    simp only [nextMinuteBoundary, nsecPerMinute] at *
    omega

/-- C10 witness: waking at second 90 (a minute and a half past the epoch),
the computed boundary is no later than second 120, the minute-aligned time
strictly after second 90. -/
theorem schedule_next_minute_witness :
    nextMinuteBoundary 90000000000 ≤ 120000000000 :=
  (schedule_next_minute 90000000000).2.2 120000000000 (by norm_num [nsecPerMinute])
    (by norm_num)

/-- Both restoring type assertions fail on every JSON-decoded value: a
decoded array has dynamic type `[]interface` (never `[]string`) and a
decoded number float64 (never `int`). -/
lemma decoded_assertions_fail (j : JVal) :
    assertStringSlice j.toGoVal = none ∧ assertGoInt j.toGoVal = none := by
  cases j <;> simp [JVal.toGoVal, assertStringSlice, assertGoInt]

/-- C2: for every content of the persisted snapshot db.json — unreadable,
undecodable, or any decoded key-value map, including a well-formed snapshot
previously written by SetProcessedAlerts / SetMaxWazersOnline (which
decodes to a JSON array of strings and a JSON number) — GetProcessedAlerts
returns the empty set and GetMaxWazersOnline returns 0: the `.([]string)`
and `.(int)` assertions never succeed on JSON-decoded data, so persisted
dedup and peak state is never restored at startup. -/
theorem persisted_state_never_restored (file : Option (List (String × JVal))) :
    getProcessedAlerts file = [] ∧ getMaxWazersOnline file = 0 := by
  constructor
  · simp only [getProcessedAlerts]
    cases hl : (file.getD []).lookup "processedAlerts" with
    | none => rfl
    | some j =>
      simp [(decoded_assertions_fail j).1]
  · simp only [getMaxWazersOnline]
    cases hl : (file.getD []).lookup "maxWazersOnline" with
    | none => rfl
    | some j =>
      simp [(decoded_assertions_fail j).2]

/-- C2 witness: a snapshot holding the round-tripped shape of a previously
saved state — a JSON string array under processedAlerts and a JSON number
under maxWazersOnline — still restores nothing. -/
theorem persisted_state_never_restored_witness :
    getProcessedAlerts
      (some [("processedAlerts", JVal.jarr [JVal.jstr "a9"]),
             ("maxWazersOnline", JVal.jnum 7)]) = [] ∧
    getMaxWazersOnline
      (some [("processedAlerts", JVal.jarr [JVal.jstr "a9"]),
             ("maxWazersOnline", JVal.jnum 7)]) = 0 :=
  persisted_state_never_restored
    (some [("processedAlerts", JVal.jarr [JVal.jstr "a9"]),
           ("maxWazersOnline", JVal.jnum 7)])
